import Mathlib

/-!
Shallow embedding of the adaptive-assessment and recommendation core of the
Edu_Learn education platform backend (`adaptive_assessment_models.py`,
`adaptive_assessment_routes.py`, `recommendation_models.py`).

Modelling conventions:
* Python floats are modelled by `ℚ`; Python ints by `ℤ` where user input can
  make them negative (`max_questions`, ids) and by `ℕ` for the monotone
  session counters (`questions_answered`, `correct_answers`, which start at 0
  and are only incremented).
* `np.sqrt` is an ambient parameter `sqrt : ℚ → ℚ`: the theorems about
  `complete_assessment` hold for every value of the square-root routine.
* The per-question Gaussian perturbation `np.random.normal(0, 0.1)` of
  `select_next_question` is an ambient parameter `noise : Question → ℚ`.
* Python strings are `List Char`; `.strip()` / `.lower()` are modelled over
  the ASCII fragment.
* Database rows are explicit lists; the SQLAlchemy queries of the route
  handlers become filters over those lists.
-/

namespace EduLearn

/-- The `status` column of `adaptive_assessments`
(`adaptive_assessment_models.py` line 155): the comment documents the
three values `in_progress`, `completed`, `abandoned`. -/
inductive Status where
  | inProgress
  | completed
  | abandoned
deriving DecidableEq, Repr

/-- A row of `adaptive_questions` (`AdaptiveQuestion`), restricted to the
columns the embedded operations read. -/
structure Question where
  id : ℤ
  topic_id : ℤ
  course_id : ℤ
  is_active : Bool
  points : ℚ
  correct_answer : List Char
  initial_difficulty : ℚ
  times_used : ℕ
  correct_responses : ℕ
deriving DecidableEq, Repr

/-- A row of `assessment_responses` (`AssessmentResponse`), restricted to the
columns the embedded operations read. -/
structure Response where
  question_id : ℤ
  user_answer : List Char
  is_correct : Bool
  points_earned : ℚ
  question_difficulty : Option ℚ
deriving DecidableEq, Repr

/-- A row of `adaptive_assessments` (`AdaptiveAssessment`), restricted to the
columns the embedded operations read. -/
structure Assessment where
  status : Status
  topic_id : Option ℤ
  course_id : ℤ
  max_questions : ℤ
  questions_answered : ℕ
  correct_answers : ℕ
  initial_difficulty : ℚ
  current_difficulty : ℚ
  difficulty_adjustment_rate : ℚ
  confidence_threshold : ℚ
  final_score : Option ℚ
  proficiency_level : Option String
  confidence_interval : Option ℚ
deriving DecidableEq, Repr

/-- `AdaptiveQuestion.get_difficulty_score` (model lines 91-103). -/
def get_difficulty_score (q : Question) : ℚ :=
  if q.times_used = 0 then q.initial_difficulty
  else
    let success_rate : ℚ := (q.correct_responses : ℚ) / (q.times_used : ℚ)
    if success_rate > 8/10 then min 1 (q.initial_difficulty + 1/10)
    else if success_rate < 3/10 then max 0 (q.initial_difficulty - 1/10)
    else q.initial_difficulty

/-- `AdaptiveAssessment.get_progress_percentage` (model line 192). -/
def get_progress_percentage (a : Assessment) : ℚ :=
  if a.max_questions > 0 then ((a.questions_answered : ℚ) / (a.max_questions : ℚ)) * 100
  else 0

/-- `AdaptiveAssessment.get_accuracy_rate` (model line 196). -/
def get_accuracy_rate (a : Assessment) : ℚ :=
  if a.questions_answered > 0 then ((a.correct_answers : ℚ) / (a.questions_answered : ℚ)) * 100
  else 0

/-- `AdaptiveAssessment.adjust_difficulty` (model lines 198-210).  The
`response_time` argument of the Python method is unused by its body and is
omitted here. -/
def adjust_difficulty (a : Assessment) (is_correct : Bool) : Assessment :=
  if a.questions_answered < 3 then a
  else if is_correct then
    { a with current_difficulty := min 1 (a.current_difficulty + a.difficulty_adjustment_rate) }
  else
    { a with current_difficulty := max 0 (a.current_difficulty - a.difficulty_adjustment_rate) }

/-- `AdaptiveAssessment.complete_assessment` (model lines 212-238),
parametrised by the ambient square-root routine.  The wall-clock fields
(`completed_at`, `time_spent_minutes`) are not modelled; no claim mentions
them. -/
def complete_assessment (sqrt : ℚ → ℚ) (a : Assessment) : Assessment :=
  let fs := get_accuracy_rate a
  let prof : String :=
    if fs ≥ 90 then "expert"
    else if fs ≥ 75 then "advanced"
    else if fs ≥ 60 then "intermediate"
    else "beginner"
  let ci : Option ℚ :=
    if a.questions_answered > 0 then
      some (min (sqrt ((fs * (100 - fs)) / (a.questions_answered : ℚ))) 10)
    else a.confidence_interval
  { a with
    status := Status.completed
    final_score := some fs
    proficiency_level := some prof
    confidence_interval := ci }

/-- `AdaptiveAssessmentEngine.estimate_user_ability` (model lines 404-423).
`np.mean` over the responses with a non-`None` `question_difficulty` is
modelled with rational division, whose value at an empty list is `0/0 = 0`;
the theorems about this function assume that list non-empty, which is the
domain on which the Python mean is defined. -/
def estimate_user_ability (user_responses : List Response) : ℚ :=
  if user_responses.isEmpty then 1/2
  else
    let correct_count := (user_responses.filter (fun r => r.is_correct)).length
    let total_count := user_responses.length
    if total_count = 0 then 1/2
    else
      let diffs := user_responses.filterMap (fun r => r.question_difficulty)
      let avg_difficulty : ℚ := diffs.sum / (diffs.length : ℚ)
      let performance : ℚ := (correct_count : ℚ) / (total_count : ℚ)
      let ability := performance * (7/10) + avg_difficulty * (3/10)
      max 0 (min 1 ability)

/-- The pool of questions `select_next_question` chooses from (engine lines
373-384): active questions of the assessment's topic and course, minus the
already answered ones.  The assessment's nullable `topic_id` is compared to
the question's non-nullable one, as `filter_by(topic_id=...)` does. -/
def candidate_questions (pool : List Question) (a : Assessment)
    (user_responses : List Response) : List Question :=
  let available := pool.filter (fun q =>
    (a.topic_id == some q.topic_id) && (q.course_id == a.course_id) && q.is_active)
  let answered_question_ids := user_responses.map (fun r => r.question_id)
  available.filter (fun q => !(answered_question_ids.contains q.id))

/-- The perturbed proximity score of engine line 397:
`1.0 / (1.0 + |difficulty - target|) + np.random.normal(0, 0.1)`, the
Gaussian draw being the ambient `noise`. -/
def perturbed_score (a : Assessment) (noise : Question → ℚ) (q : Question) : ℚ :=
  1 / (1 + |get_difficulty_score q - a.current_difficulty|) + noise q

/-- First element of maximal score.  Python sorts the scored list descending
with the stable built-in sort and takes index 0 (engine lines 400-402), which
is exactly the first element attaining the maximal score. -/
def pickBest (f : Question → ℚ) : List Question → Option Question
  | [] => none
  | x :: xs => some (xs.foldl (fun b c => if f b < f c then c else b) x)

/-- `AdaptiveAssessmentEngine.select_next_question` (engine lines 367-402).
The final Python fallback `available_questions[0]` is dead code (the scored
list is empty only when the candidate list is, which was already returned as
`None`). -/
def select_next_question (pool : List Question) (noise : Question → ℚ)
    (a : Assessment) (user_responses : List Response) : Option Question :=
  if (a.questions_answered : ℤ) ≥ a.max_questions then none
  else
    let available := pool.filter (fun q =>
      (a.topic_id == some q.topic_id) && (q.course_id == a.course_id) && q.is_active)
    if available.isEmpty then none
    else
      let cands := candidate_questions pool a user_responses
      if cands.isEmpty then none
      else pickBest (perturbed_score a noise) cands

/-- `AdaptiveAssessmentEngine.should_terminate_assessment` (engine lines
425-442).  `user_responses[-5:]` is `drop (length - 5)`.  The Python body
also computes an ability estimate it never uses. -/
def should_terminate_assessment (a : Assessment) (user_responses : List Response) : Bool :=
  if a.questions_answered < 5 then false
  else
    let _ability_estimate := estimate_user_ability user_responses
    if a.questions_answered ≥ 10 then
      let recent_responses := user_responses.drop (user_responses.length - 5)
      let recent_consistency : ℚ :=
        ((recent_responses.filter (fun r => r.is_correct)).length : ℚ) /
          (recent_responses.length : ℚ)
      decide (recent_consistency > 8/10 ∨ recent_consistency < 2/10)
    else false

/-! ### Route handlers (`adaptive_assessment_routes.py`) -/

/-- The current user, abstracted by the two role predicates the adaptive
routes consult.  (The `User` class lives in `models.py`; the route guards
only call its `is_teacher()` / `is_admin()` methods.) -/
structure User where
  is_teacher : Bool
  is_admin : Bool
deriving DecidableEq, Repr

/-- Python's `str.strip()` whitespace test, over the ASCII fragment. -/
def isPySpace (c : Char) : Bool :=
  (c == ' ') || (c == '\t') || (c == '\n') || (c == '\r') || (c == '\x0b') || (c == '\x0c')

/-- Python's `str.strip()`: drop whitespace from both ends. -/
def pyStrip (s : List Char) : List Char :=
  ((s.dropWhile isPySpace).reverse.dropWhile isPySpace).reverse

/-- Python's `str.lower()`, over the ASCII fragment. -/
def pyLower (s : List Char) : List Char :=
  s.map Char.toLower

/-- Route line 250: `user_answer.strip().lower() == question.correct_answer.strip().lower()`. -/
def is_answer_correct (user_answer correct_answer : List Char) : Bool :=
  pyLower (pyStrip user_answer) == pyLower (pyStrip correct_answer)

/-- The `create_question` handler (routes lines 42-80), reduced to its
permission guard and its database effect: it returns the HTTP status code
and the question table after the request.  `403` is returned, and no row is
added, unless the user is a teacher or an admin. -/
def create_question (u : User) (q : Question) (questions : List Question) :
    ℕ × List Question :=
  if !u.is_teacher && !u.is_admin then (403, questions)
  else (200, questions ++ [q])

/-- The `admin_get_questions` handler (routes lines 508-523), reduced to its
permission guard: the returned HTTP status code. -/
def admin_get_questions (u : User) : ℕ :=
  if !u.is_admin then 403 else 200

/-- The per-assessment session state the routes manipulate: the assessment
row and its responses (`AssessmentResponse.query.filter_by(assessment_id=...)`). -/
structure SessionState where
  assessment : Assessment
  responses : List Response
deriving DecidableEq, Repr

/-- The `submit_answer` handler (routes lines 215-308), as a state
transformer on the session.  A request against an assessment whose status is
not `in_progress` is rejected with HTTP 400 and changes nothing.  Otherwise
the answer is graded (line 250), a response row is inserted, the counters
are advanced, the difficulty adjusted, and the assessment completed when the
early-termination heuristic fires or `questions_answered` reaches
`max_questions`.  The question-statistics update (`update_statistics`)
touches only the question row and is not part of the session state. -/
def submit_answer (sqrt : ℚ → ℚ) (q : Question) (user_answer : List Char)
    (s : SessionState) : SessionState :=
  if s.assessment.status ≠ Status.inProgress then s
  else
    let is_correct := is_answer_correct user_answer q.correct_answer
    let points_earned : ℚ := if is_correct then q.points else 0
    let response : Response :=
      { question_id := q.id
        user_answer := user_answer
        is_correct := is_correct
        points_earned := points_earned
        question_difficulty := some (get_difficulty_score q) }
    let a1 :=
      { s.assessment with
        questions_answered := s.assessment.questions_answered + 1
        correct_answers :=
          if is_correct then s.assessment.correct_answers + 1 else s.assessment.correct_answers }
    let a2 := adjust_difficulty a1 is_correct
    let responses1 := s.responses ++ [response]
    let a3 :=
      if should_terminate_assessment a2 responses1 ||
          decide ((a2.questions_answered : ℤ) ≥ a2.max_questions) then
        complete_assessment sqrt a2
      else a2
    { assessment := a3, responses := responses1 }

/-- The `get_current_question` handler (routes lines 168-213), as a state
transformer: a non-`in_progress` assessment is rejected unchanged; when no
next question can be selected the assessment is completed. -/
def get_current_question (sqrt : ℚ → ℚ) (pool : List Question) (noise : Question → ℚ)
    (s : SessionState) : SessionState :=
  if s.assessment.status ≠ Status.inProgress then s
  else
    match select_next_question pool noise s.assessment s.responses with
    | none => { s with assessment := complete_assessment sqrt s.assessment }
    | some _ => s

/-- A fresh assessment as built by the `create_assessment` handler (routes
lines 103-130) together with the column defaults of the model: status
`in_progress`, zeroed counters, current difficulty 0.5. -/
def init_assessment (topic_id : Option ℤ) (course_id max_questions : ℤ)
    (initial_difficulty difficulty_adjustment_rate confidence_threshold : ℚ) : Assessment :=
  { status := Status.inProgress
    topic_id := topic_id
    course_id := course_id
    max_questions := max_questions
    questions_answered := 0
    correct_answers := 0
    initial_difficulty := initial_difficulty
    current_difficulty := 1/2
    difficulty_adjustment_rate := difficulty_adjustment_rate
    confidence_threshold := confidence_threshold
    final_score := none
    proficiency_level := none
    confidence_interval := none }

/-- One step of the session: any `submit_answer` or `get_current_question`
request, with arbitrary looked-up question, submitted answer, question pool,
noise and square-root routine.  (`start_assessment` and the read-only
handlers do not mutate the session.) -/
inductive Step : SessionState → SessionState → Prop where
  | submit (sqrt : ℚ → ℚ) (q : Question) (user_answer : List Char) (s : SessionState) :
      Step s (submit_answer sqrt q user_answer s)
  | question (sqrt : ℚ → ℚ) (pool : List Question) (noise : Question → ℚ) (s : SessionState) :
      Step s (get_current_question sqrt pool noise s)

/-! ### Recommendation engine (`recommendation_models.py`) -/

/-- A recommendation entry as built by the three generators
(`content_based_recommendations`, `collaborative_filtering_recommendations`,
`gap_filling_recommendations`), restricted to the fields
`hybrid_recommendations` reads. -/
structure Recommendation where
  content_id : ℤ
  content_type : String
  score : ℚ
deriving DecidableEq, Repr

/-- The deduplication key of engine line 458: `f"{content_id}_{content_type}"`.
Since `content_id` prints without an underscore, the string key is injective
in the pair, which we use directly. -/
def recKey (r : Recommendation) : ℤ × String :=
  (r.content_id, r.content_type)

/-- The seen-set deduplication loop of engine lines 454-461: keep the first
entry of each key. -/
def dedup_first : List Recommendation → List (ℤ × String) → List Recommendation
  | [], _ => []
  | r :: rest, seen =>
      if recKey r ∈ seen then dedup_first rest seen
      else r :: dedup_first rest (recKey r :: seen)

/-- Non-increasing score order used by `sort(key=lambda x: x['score'], reverse=True)`. -/
def score_desc (r₁ r₂ : Recommendation) : Prop :=
  r₂.score ≤ r₁.score

instance : DecidableRel score_desc := fun a b =>
  inferInstanceAs (Decidable (b.score ≤ a.score))

instance : IsTotal Recommendation score_desc :=
  ⟨fun a b => le_total b.score a.score⟩

instance : IsTrans Recommendation score_desc :=
  ⟨fun _ _ _ h₁ h₂ => le_trans h₂ h₁⟩

/-- `RecommendationEngine.hybrid_recommendations` (engine lines 446-465), with
the three database-driven generators abstracted by their result lists:
concatenate, deduplicate keeping first occurrences, sort by score descending,
truncate to `limit`. -/
def hybrid_recommendations (content_based collaborative gap_filling : List Recommendation)
    (limit : ℕ) : List Recommendation :=
  let all_recommendations := content_based ++ collaborative ++ gap_filling
  let unique_recommendations := dedup_first all_recommendations []
  (List.insertionSort score_desc unique_recommendations).take limit

/-! ### Concrete sample data, used to instantiate the theorems below -/

/-- A sample question row. -/
def demoQuestion : Question :=
  { id := 7
    topic_id := 1
    course_id := 1
    is_active := true
    points := 2
    correct_answer := ['P', 'a', 'r', 'i', 's']
    initial_difficulty := 1/2
    times_used := 0
    correct_responses := 0 }

/-- A freshly created assessment row (the column defaults). -/
def demoAssessment : Assessment :=
  { status := Status.inProgress
    topic_id := some 1
    course_id := 1
    max_questions := 20
    questions_answered := 0
    correct_answers := 0
    initial_difficulty := 1/2
    current_difficulty := 1/2
    difficulty_adjustment_rate := 1/10
    confidence_threshold := 8/10
    final_score := none
    proficiency_level := none
    confidence_interval := none }

/-- An assessment four questions in, all answered correctly. -/
def demoAnswered : Assessment :=
  { demoAssessment with questions_answered := 4, correct_answers := 4 }

/-- A sample response row. -/
def demoResponse : Response :=
  { question_id := 7
    user_answer := ['P', 'a', 'r', 'i', 's']
    is_correct := true
    points_earned := 2
    question_difficulty := some (1/2) }

/-- A fresh session. -/
def demoSession : SessionState :=
  { assessment := demoAssessment, responses := [] }

/-! ### Claim theorems -/

/-- C1: `adjust_difficulty` leaves `current_difficulty` unchanged during the
baseline phase (`questions_answered < 3`); afterwards a correct answer sets
it to `min 1 (d + rate)` and an incorrect one to `max 0 (d - rate)`; hence a
difficulty that starts in `[0,1]` stays in `[0,1]` after every call whenever
the adjustment rate is nonnegative. -/
theorem adjust_difficulty_spec (a : Assessment) (is_correct : Bool) :
    (a.questions_answered < 3 → adjust_difficulty a is_correct = a) ∧
    (3 ≤ a.questions_answered → is_correct = true →
      (adjust_difficulty a is_correct).current_difficulty =
        min 1 (a.current_difficulty + a.difficulty_adjustment_rate)) ∧
    (3 ≤ a.questions_answered → is_correct = false →
      (adjust_difficulty a is_correct).current_difficulty =
        max 0 (a.current_difficulty - a.difficulty_adjustment_rate)) ∧
    (0 ≤ a.current_difficulty → a.current_difficulty ≤ 1 →
      0 ≤ a.difficulty_adjustment_rate →
      0 ≤ (adjust_difficulty a is_correct).current_difficulty ∧
        (adjust_difficulty a is_correct).current_difficulty ≤ 1) := by
  refine ⟨?_, ?_, ?_, ?_⟩
  · intro h
    simp [adjust_difficulty, h]
  · intro h hc
    subst hc
    simp [adjust_difficulty, Nat.not_lt.mpr h]
  · intro h hc
    subst hc
    simp [adjust_difficulty, Nat.not_lt.mpr h]
  · intro h0 h1 h2
    by_cases h3 : a.questions_answered < 3
    · simp only [adjust_difficulty, if_pos h3]
      exact ⟨h0, h1⟩
    · cases is_correct with
      | true =>
          simp only [adjust_difficulty, if_neg h3, if_pos rfl]
          constructor
          · exact le_min (by norm_num) (by linarith)
          · exact min_le_left _ _
      | false =>
          have hf : ¬ (false = true) := by simp
          simp only [adjust_difficulty, if_neg h3, if_neg hf]
          constructor
          · exact le_max_left _ _
          · exact max_le (by norm_num) (by linarith)

/-- Witness for C1 at a concrete assessment. -/
theorem adjust_difficulty_spec_witness :
    adjust_difficulty demoAssessment true = demoAssessment ∧
    (0 ≤ (adjust_difficulty demoAssessment false).current_difficulty ∧
      (adjust_difficulty demoAssessment false).current_difficulty ≤ 1) :=
  ⟨(adjust_difficulty_spec demoAssessment true).1 (by decide),
   (adjust_difficulty_spec demoAssessment false).2.2.2 (by norm_num [demoAssessment])
     (by norm_num [demoAssessment]) (by norm_num [demoAssessment])⟩

/-- C9: the percentage accessors guard their divisions: `get_accuracy_rate`
is `0` at `questions_answered = 0` and `(correct/answered)*100` otherwise;
`get_progress_percentage` is `0` at `max_questions ≤ 0` and
`(answered/max)*100` otherwise. -/
theorem percentage_guards_spec (a : Assessment) :
    (a.questions_answered = 0 → get_accuracy_rate a = 0) ∧
    (a.questions_answered ≠ 0 →
      get_accuracy_rate a = ((a.correct_answers : ℚ) / (a.questions_answered : ℚ)) * 100) ∧
    (a.max_questions ≤ 0 → get_progress_percentage a = 0) ∧
    (0 < a.max_questions →
      get_progress_percentage a = ((a.questions_answered : ℚ) / (a.max_questions : ℚ)) * 100) := by
  refine ⟨?_, ?_, ?_, ?_⟩
  · intro h
    simp [get_accuracy_rate, h]
  · intro h
    simp [get_accuracy_rate, Nat.pos_of_ne_zero h]
  · intro h
    simp [get_progress_percentage, not_lt.mpr h]
  · intro h
    simp [get_progress_percentage, h]

/-- Witness for C9 at concrete assessments. -/
theorem percentage_guards_spec_witness :
    get_accuracy_rate demoAssessment = 0 ∧
    get_accuracy_rate demoAnswered = ((4 : ℚ) / (4 : ℚ)) * 100 :=
  ⟨(percentage_guards_spec demoAssessment).1 (by decide),
   (percentage_guards_spec demoAnswered).2.1 (by decide)⟩

/-- C10: `complete_assessment` marks the assessment completed, stores the
accuracy rate as `final_score`, assigns the proficiency level by the fixed
90/75/60 thresholds, and, when at least one question was answered, stores a
confidence interval capped at 10, whatever value the square-root routine
returns. -/
theorem complete_assessment_spec (sqrt : ℚ → ℚ) (a : Assessment) :
    (complete_assessment sqrt a).status = Status.completed ∧
    (complete_assessment sqrt a).final_score = some (get_accuracy_rate a) ∧
    (90 ≤ get_accuracy_rate a →
      (complete_assessment sqrt a).proficiency_level = some "expert") ∧
    (75 ≤ get_accuracy_rate a → get_accuracy_rate a < 90 →
      (complete_assessment sqrt a).proficiency_level = some "advanced") ∧
    (60 ≤ get_accuracy_rate a → get_accuracy_rate a < 75 →
      (complete_assessment sqrt a).proficiency_level = some "intermediate") ∧
    (get_accuracy_rate a < 60 →
      (complete_assessment sqrt a).proficiency_level = some "beginner") ∧
    (0 < a.questions_answered →
      ∃ c, (complete_assessment sqrt a).confidence_interval = some c ∧ c ≤ 10) := by
  refine ⟨rfl, rfl, ?_, ?_, ?_, ?_, ?_⟩
  · intro h
    simp [complete_assessment, ge_iff_le, h]
  · intro h h'
    simp [complete_assessment, ge_iff_le, h, not_le.mpr h']
  · intro h h'
    have h90 : ¬ (90 : ℚ) ≤ get_accuracy_rate a :=
      not_le.mpr (lt_of_lt_of_le h' (by norm_num))
    simp [complete_assessment, ge_iff_le, h, not_le.mpr h', h90]
  · intro h
    have h75 : ¬ (75 : ℚ) ≤ get_accuracy_rate a :=
      not_le.mpr (lt_of_lt_of_le h (by norm_num))
    have h90 : ¬ (90 : ℚ) ≤ get_accuracy_rate a :=
      not_le.mpr (lt_of_lt_of_le h (by norm_num))
    simp [complete_assessment, ge_iff_le, not_le.mpr h, h75, h90]
  · intro h
    refine ⟨min (sqrt ((get_accuracy_rate a * (100 - get_accuracy_rate a)) /
      (a.questions_answered : ℚ))) 10, ?_, min_le_right _ _⟩
    simp [complete_assessment, h]

/-- Witness for C10 at a concrete assessment and the identity square root. -/
theorem complete_assessment_spec_witness :
    (complete_assessment id demoAnswered).status = Status.completed ∧
    (complete_assessment id demoAnswered).proficiency_level = some "expert" ∧
    ∃ c, (complete_assessment id demoAnswered).confidence_interval = some c ∧ c ≤ 10 :=
  ⟨(complete_assessment_spec id demoAnswered).1,
   (complete_assessment_spec id demoAnswered).2.2.1
     (by norm_num [get_accuracy_rate, demoAnswered, demoAssessment]),
   (complete_assessment_spec id demoAnswered).2.2.2.2.2.2 (by decide)⟩

/-- C6: the route permission guards: `create_question` answers 403 and
leaves the question table unchanged unless the user is a teacher or an
admin, and `admin_get_questions` answers 403 unless the user is an admin. -/
theorem permission_guards_spec (u : User) (q : Question) (questions : List Question) :
    (¬(u.is_teacher = true ∨ u.is_admin = true) →
      create_question u q questions = (403, questions)) ∧
    ((u.is_teacher = true ∨ u.is_admin = true) →
      create_question u q questions = (200, questions ++ [q])) ∧
    (u.is_admin = false → admin_get_questions u = 403) ∧
    (u.is_admin = true → admin_get_questions u = 200) := by
  cases ht : u.is_teacher <;> cases ha : u.is_admin <;>
    simp [create_question, admin_get_questions, ht, ha]

/-- Witness for C6 at concrete users. -/
theorem permission_guards_spec_witness :
    create_question { is_teacher := false, is_admin := false } demoQuestion [] = (403, []) ∧
    admin_get_questions { is_teacher := true, is_admin := false } = 403 :=
  ⟨(permission_guards_spec ⟨false, false⟩ demoQuestion []).1 (by decide),
   (permission_guards_spec ⟨true, false⟩ demoQuestion []).2.2.1 rfl⟩

/-- C8: grading in `submit_answer` is case-insensitive and insensitive to
leading/trailing whitespace: the stored response is correct exactly when the
stripped, lowercased user answer equals the stripped, lowercased stored
correct answer, and it earns the question's points when correct and 0
otherwise. -/
theorem submit_answer_grading_spec (sqrt : ℚ → ℚ) (q : Question) (user_answer : List Char)
    (s : SessionState) (h : s.assessment.status = Status.inProgress) :
    ∃ r : Response,
      (submit_answer sqrt q user_answer s).responses = s.responses ++ [r] ∧
      (r.is_correct = true ↔ pyLower (pyStrip user_answer) = pyLower (pyStrip q.correct_answer)) ∧
      r.points_earned = (if r.is_correct = true then q.points else 0) := by
  unfold submit_answer
  simp only [h, ne_eq, not_true_eq_false, if_false]
  refine ⟨_, rfl, ?_, rfl⟩
  simp [is_answer_correct]

/-- Witness for C8 at a concrete session and answer. -/
theorem submit_answer_grading_spec_witness :
    ∃ r : Response,
      (submit_answer id demoQuestion [' ', 'p', 'A', 'R', 'I', 'S'] demoSession).responses =
        [] ++ [r] ∧
      (r.is_correct = true ↔
        pyLower (pyStrip [' ', 'p', 'A', 'R', 'I', 'S']) =
          pyLower (pyStrip demoQuestion.correct_answer)) ∧
      r.points_earned = (if r.is_correct = true then demoQuestion.points else 0) :=
  submit_answer_grading_spec id demoQuestion [' ', 'p', 'A', 'R', 'I', 'S'] demoSession rfl

/-- C3: `estimate_user_ability` is 0.5 on the empty list; on a non-empty
list whose difficulty mean is defined (at least one response carries a
`question_difficulty`), it is the clamp to `[0,1]` of
`0.7 * correct/total + 0.3 * mean difficulty`; and its value always lies in
`[0,1]`. -/
theorem estimate_user_ability_spec (user_responses : List Response) :
    (user_responses = [] → estimate_user_ability user_responses = 1/2) ∧
    (user_responses ≠ [] →
      user_responses.filterMap (fun r => r.question_difficulty) ≠ [] →
      estimate_user_ability user_responses =
        max 0 (min 1
          (((user_responses.filter (fun r => r.is_correct)).length : ℚ) /
              (user_responses.length : ℚ) * (7/10) +
            (user_responses.filterMap (fun r => r.question_difficulty)).sum /
              ((user_responses.filterMap (fun r => r.question_difficulty)).length : ℚ) *
              (3/10)))) ∧
    (0 ≤ estimate_user_ability user_responses ∧ estimate_user_ability user_responses ≤ 1) := by
  refine ⟨?_, ?_, ?_⟩
  · intro h
    simp [estimate_user_ability, h]
  · intro h _
    obtain ⟨x, xs, rfl⟩ := List.exists_cons_of_ne_nil h
    simp [estimate_user_ability]
  · unfold estimate_user_ability
    by_cases he : user_responses.isEmpty
    · simp only [if_pos he]
      norm_num
    · simp only [if_neg he]
      by_cases hz : user_responses.length = 0
      · simp only [if_pos hz]
        norm_num
      · simp only [if_neg hz]
        refine ⟨le_max_left _ _, max_le (by norm_num) (min_le_left _ _)⟩

/-- Witness for C3 at concrete response lists. -/
theorem estimate_user_ability_spec_witness :
    estimate_user_ability [] = 1/2 ∧
    estimate_user_ability [demoResponse] =
      max 0 (min 1
        ((([demoResponse].filter (fun r => r.is_correct)).length : ℚ) /
            (([demoResponse] : List Response).length : ℚ) * (7/10) +
          ([demoResponse].filterMap (fun r => r.question_difficulty)).sum /
            (([demoResponse].filterMap (fun r => r.question_difficulty)).length : ℚ) *
            (3/10))) :=
  ⟨(estimate_user_ability_spec []).1 rfl,
   (estimate_user_ability_spec [demoResponse]).2.1 (by simp) (by simp [demoResponse])⟩

/-- C4: the early-termination heuristic, fed the assessment's own response
list (the callers pass all responses of the assessment, so the list length
equals `questions_answered`), is `false` below 5 answered questions, ignores
the configured `confidence_threshold` entirely, and is `true` exactly when
at least 10 questions were answered and the correct fraction among the last
5 responses is above 0.8 or below 0.2. -/
theorem should_terminate_assessment_spec (a : Assessment) (user_responses : List Response)
    (hlen : user_responses.length = a.questions_answered) :
    ((should_terminate_assessment a user_responses = true) ↔
      (10 ≤ a.questions_answered ∧
        (8/10 <
            (((user_responses.drop (user_responses.length - 5)).filter
              (fun r => r.is_correct)).length : ℚ) / 5 ∨
          (((user_responses.drop (user_responses.length - 5)).filter
              (fun r => r.is_correct)).length : ℚ) / 5 < 2/10))) ∧
    (a.questions_answered < 5 → should_terminate_assessment a user_responses = false) ∧
    (∀ c : ℚ, should_terminate_assessment { a with confidence_threshold := c } user_responses =
      should_terminate_assessment a user_responses) := by
  refine ⟨?_, ?_, fun c => rfl⟩
  · unfold should_terminate_assessment
    by_cases h5 : a.questions_answered < 5
    · simp only [if_pos h5, Bool.false_eq_true, false_iff]
      rintro ⟨h10, -⟩
      omega
    · by_cases h10 : 10 ≤ a.questions_answered
      · have hr5 : (user_responses.drop (user_responses.length - 5)).length = 5 := by
          rw [List.length_drop]
          omega
        simp only [if_neg h5, if_pos h10, decide_eq_true_eq, hr5, Nat.cast_ofNat]
        constructor
        · intro hc
          exact ⟨h10, hc⟩
        · rintro ⟨-, hc⟩
          exact hc
      · simp only [if_neg h5, if_neg h10, Bool.false_eq_true, false_iff]
        rintro ⟨h, -⟩
        exact h10 h
  · intro h
    simp [should_terminate_assessment, h]

/-- Witness for C4 at a concrete assessment and response list. -/
theorem should_terminate_assessment_spec_witness :
    should_terminate_assessment demoAssessment [] = false :=
  (should_terminate_assessment_spec demoAssessment [] rfl).2.1 (by decide)

/-- The left fold of `pickBest` returns a member of maximal score; the first
such member, matching the head of a stable descending sort. -/
lemma foldl_pickBest_spec (f : Question → ℚ) :
    ∀ (xs : List Question) (x : Question),
      (xs.foldl (fun b c => if f b < f c then c else b) x) ∈ x :: xs ∧
      ∀ y ∈ x :: xs, f y ≤ f (xs.foldl (fun b c => if f b < f c then c else b) x) := by
  intro xs
  induction xs with
  | nil =>
      intro x
      simp
  | cons c xs ih =>
      intro x
      obtain ⟨hmem, hle⟩ := ih (if f x < f c then c else x)
      rw [List.foldl_cons]
      constructor
      · rcases List.mem_cons.mp hmem with heq | hmem'
        · by_cases hfc : f x < f c
          · rw [heq, if_pos hfc]
            exact List.mem_cons_of_mem _ (List.mem_cons_self _ _)
          · rw [heq, if_neg hfc]
            exact List.mem_cons_self _ _
        · exact List.mem_cons_of_mem _ (List.mem_cons_of_mem _ hmem')
      · intro y hy
        have hx : f x ≤ f (if f x < f c then c else x) := by
          by_cases hfc : f x < f c
          · rw [if_pos hfc]
            exact le_of_lt hfc
          · rw [if_neg hfc]
        have hc : f c ≤ f (if f x < f c then c else x) := by
          by_cases hfc : f x < f c
          · rw [if_pos hfc]
          · rw [if_neg hfc]
            exact not_lt.mp hfc
        have hhead := hle _ (List.mem_cons_self _ _)
        rcases List.mem_cons.mp hy with rfl | hy'
        · exact le_trans hx hhead
        · rcases List.mem_cons.mp hy' with rfl | hy''
          · exact le_trans hc hhead
          · exact hle _ (List.mem_cons_of_mem _ hy'')

/-- `pickBest` on a non-empty list yields a member whose score dominates the
whole list. -/
lemma pickBest_spec (f : Question → ℚ) (l : List Question) (h : l ≠ []) :
    ∃ q, pickBest f l = some q ∧ q ∈ l ∧ ∀ y ∈ l, f y ≤ f q := by
  match l with
  | [] => exact absurd rfl h
  | x :: xs =>
      obtain ⟨hmem, hle⟩ := foldl_pickBest_spec f xs x
      exact ⟨_, rfl, hmem, hle⟩

/-- C2: `select_next_question` returns `None` when the question budget is
exhausted or when no active question of the assessment's topic and course
remains unanswered; otherwise it returns a candidate question maximising the
noise-perturbed proximity score `1/(1+|difficulty - current|) + noise`. -/
theorem select_next_question_spec (pool : List Question) (noise : Question → ℚ)
    (a : Assessment) (user_responses : List Response) :
    (((a.max_questions ≤ (a.questions_answered : ℤ)) ∨
        candidate_questions pool a user_responses = []) →
      select_next_question pool noise a user_responses = none) ∧
    ((a.questions_answered : ℤ) < a.max_questions →
      candidate_questions pool a user_responses ≠ [] →
      ∃ q, select_next_question pool noise a user_responses = some q ∧
        q ∈ candidate_questions pool a user_responses ∧
        ∀ q' ∈ candidate_questions pool a user_responses,
          perturbed_score a noise q' ≤ perturbed_score a noise q) := by
  constructor
  · rintro (h | h)
    · simp [select_next_question, ge_iff_le, h]
    · unfold select_next_question
      by_cases hge : (a.questions_answered : ℤ) ≥ a.max_questions
      · rw [if_pos hge]
      · rw [if_neg hge]
        by_cases hav : (pool.filter (fun q =>
            (a.topic_id == some q.topic_id) && (q.course_id == a.course_id) && q.is_active)).isEmpty
        · rw [if_pos hav]
        · rw [if_neg hav, if_pos]
          rw [h]
          rfl
  · intro hlt hne
    unfold select_next_question
    rw [if_neg (not_le.mpr hlt)]
    have hav : ¬ (pool.filter (fun q =>
        (a.topic_id == some q.topic_id) && (q.course_id == a.course_id) && q.is_active)).isEmpty := by
      intro hav
      apply hne
      have hnil : pool.filter (fun q =>
          (a.topic_id == some q.topic_id) && (q.course_id == a.course_id) && q.is_active) = [] :=
        List.isEmpty_iff.mp hav
      simp [candidate_questions, hnil]
    rw [if_neg hav, if_neg (by simpa [List.isEmpty_iff] using hne)]
    exact pickBest_spec _ _ hne

/-- Witness for C2: with a one-question pool matching the fresh assessment's
topic and course and no noise, that question is selected and maximises the
proximity score. -/
theorem select_next_question_spec_witness :
    ∃ q, select_next_question [demoQuestion] (fun _ => 0) demoAssessment [] = some q ∧
      q ∈ candidate_questions [demoQuestion] demoAssessment [] ∧
      ∀ q' ∈ candidate_questions [demoQuestion] demoAssessment [],
        perturbed_score demoAssessment (fun _ => 0) q' ≤
          perturbed_score demoAssessment (fun _ => 0) q :=
  (select_next_question_spec [demoQuestion] (fun _ => 0) demoAssessment []).2
    (by decide) (by decide)

/-- `adjust_difficulty` never touches the status column. -/
lemma adjust_difficulty_status (a : Assessment) (is_correct : Bool) :
    (adjust_difficulty a is_correct).status = a.status := by
  unfold adjust_difficulty
  split_ifs <;> rfl

/-- `complete_assessment` always sets the status column to `completed`. -/
lemma complete_assessment_status (sqrt : ℚ → ℚ) (a : Assessment) :
    (complete_assessment sqrt a).status = Status.completed := rfl

/-- Any session step either leaves the status unchanged or completes the
assessment. -/
lemma step_status {s s' : SessionState} (h : Step s s') :
    s'.assessment.status = s.assessment.status ∨
      s'.assessment.status = Status.completed := by
  cases h with
  | submit sqrt q user_answer s =>
      by_cases hip : s.assessment.status ≠ Status.inProgress
      · unfold submit_answer
        rw [if_pos hip]
        exact Or.inl rfl
      · simp only [submit_answer, if_neg hip]
        split_ifs <;>
          first
            | exact Or.inr rfl
            | exact Or.inl (adjust_difficulty_status _ _)
  | question sqrt pool noise s =>
      by_cases hip : s.assessment.status ≠ Status.inProgress
      · unfold get_current_question
        rw [if_pos hip]
        exact Or.inl rfl
      · simp only [get_current_question, if_neg hip]
        rcases hsel : select_next_question pool noise s.assessment s.responses with _ | q
        · simp only [hsel]
          exact Or.inr rfl
        · simp [hsel]

/-- A completed session is a fixed point of every step: both handlers reject
requests against a non-`in_progress` assessment without touching it. -/
lemma step_completed_fixed {s s' : SessionState} (h : Step s s')
    (hc : s.assessment.status = Status.completed) : s' = s := by
  have hni : s.assessment.status ≠ Status.inProgress := by
    rw [hc]
    intro hax
    exact Status.noConfusion hax
  cases h with
  | submit sqrt q user_answer s =>
      unfold submit_answer
      rw [if_pos hni]
  | question sqrt pool noise s =>
      unfold get_current_question
      rw [if_pos hni]

/-- C5: the assessment status is a three-state field of which only two
states are reachable: it starts at `in_progress`, the only transition any
session operation performs is to `completed` (via `complete_assessment`,
triggered by pool exhaustion, by reaching `max_questions`, or by early
termination inside the handlers), every reachable session is `in_progress`
or `completed`, and `completed` is terminal: every further request leaves
the session unchanged, so no further answers are accepted. -/
theorem status_state_machine_spec :
    (∀ (topic_id : Option ℤ) (course_id max_questions : ℤ)
        (initial_difficulty difficulty_adjustment_rate confidence_threshold : ℚ),
      (init_assessment topic_id course_id max_questions initial_difficulty
        difficulty_adjustment_rate confidence_threshold).status = Status.inProgress) ∧
    (∀ s s' : SessionState, Step s s' →
      s'.assessment.status = s.assessment.status ∨
        s'.assessment.status = Status.completed) ∧
    (∀ s₀ s : SessionState, s₀.assessment.status = Status.inProgress →
      Relation.ReflTransGen Step s₀ s →
      s.assessment.status = Status.inProgress ∨ s.assessment.status = Status.completed) ∧
    (∀ s s' : SessionState, s.assessment.status = Status.completed → Step s s' → s' = s) := by
  refine ⟨fun _ _ _ _ _ _ => rfl, fun s s' h => step_status h, ?_,
    fun s s' hc h => step_completed_fixed h hc⟩
  intro s₀ s h0 hreach
  induction hreach with
  | refl => exact Or.inl h0
  | tail _ hstep ih =>
      rcases step_status hstep with heq | hcomp
      · rw [heq]
        exact ih
      · exact Or.inr hcomp

/-- Witness for C5: a fresh session is in progress, and a completed session
absorbs a concrete submit step. -/
theorem status_state_machine_spec_witness :
    (demoSession.assessment.status = Status.inProgress ∨
      demoSession.assessment.status = Status.completed) ∧
    submit_answer id demoQuestion [] { demoSession with
      assessment := { demoAssessment with status := Status.completed } } =
      { demoSession with assessment := { demoAssessment with status := Status.completed } } :=
  ⟨status_state_machine_spec.2.2.1 demoSession demoSession rfl Relation.ReflTransGen.refl,
   status_state_machine_spec.2.2.2 _ _ rfl
     (Step.submit id demoQuestion [] _)⟩

/-- Every output of the deduplication loop has a key outside the seen set
and is the first entry of the input carrying its key. -/
lemma dedup_first_key_spec :
    ∀ (l : List Recommendation) (seen : List (ℤ × String)) (r : Recommendation),
      r ∈ dedup_first l seen →
      recKey r ∉ seen ∧ l.find? (fun x => decide (recKey x = recKey r)) = some r := by
  intro l
  induction l with
  | nil =>
      intro seen r h
      simp [dedup_first] at h
  | cons x rest ih =>
      intro seen r h
      unfold dedup_first at h
      by_cases hk : recKey x ∈ seen
      · rw [if_pos hk] at h
        obtain ⟨hns, hfind⟩ := ih seen r h
        refine ⟨hns, ?_⟩
        have hxr : decide (recKey x = recKey r) = false := by
          simp only [decide_eq_false_iff_not]
          intro he
          exact hns (he ▸ hk)
        rw [List.find?_cons_of_neg _ (by simp [hxr]), hfind]
      · rw [if_neg hk] at h
        rcases List.mem_cons.mp h with rfl | hmem
        · exact ⟨hk, by rw [List.find?_cons_of_pos _ (by simp)]⟩
        · obtain ⟨hns, hfind⟩ := ih _ r hmem
          have hne : recKey r ≠ recKey x := by
            intro he
            exact hns (by rw [he]; exact List.mem_cons_self _ _)
          refine ⟨fun hs => hns (List.mem_cons_of_mem _ hs), ?_⟩
          have hxr : decide (recKey x = recKey r) = false := by
            simp only [decide_eq_false_iff_not]
            exact fun he => hne he.symm
          rw [List.find?_cons_of_neg _ (by simp [hxr]), hfind]

/-- The deduplication loop emits pairwise-distinct keys. -/
lemma dedup_first_pairwise :
    ∀ (l : List Recommendation) (seen : List (ℤ × String)),
      (dedup_first l seen).Pairwise (fun r₁ r₂ => recKey r₁ ≠ recKey r₂) := by
  intro l
  induction l with
  | nil =>
      intro seen
      simp [dedup_first]
  | cons x rest ih =>
      intro seen
      unfold dedup_first
      by_cases hk : recKey x ∈ seen
      · rw [if_pos hk]
        exact ih seen
      · rw [if_neg hk]
        refine List.Pairwise.cons ?_ (ih _)
        intro b hb he
        exact (dedup_first_key_spec rest _ b hb).1 (by rw [← he]; exact List.mem_cons_self _ _)

/-- C7: `hybrid_recommendations` returns at most `limit` entries, no two of
which share a `(content_id, content_type)` pair, sorted by non-increasing
score; every returned entry is the first occurrence of its key in the
concatenation of the content-based, collaborative and gap-filling source
lists. -/
theorem hybrid_recommendations_spec
    (content_based collaborative gap_filling : List Recommendation) (limit : ℕ) :
    (hybrid_recommendations content_based collaborative gap_filling limit).length ≤ limit ∧
    (hybrid_recommendations content_based collaborative gap_filling limit).Pairwise
      (fun r₁ r₂ => ¬(r₁.content_id = r₂.content_id ∧ r₁.content_type = r₂.content_type)) ∧
    List.Sorted (fun r₁ r₂ => r₂.score ≤ r₁.score)
      (hybrid_recommendations content_based collaborative gap_filling limit) ∧
    (∀ r ∈ hybrid_recommendations content_based collaborative gap_filling limit,
      (content_based ++ collaborative ++ gap_filling).find?
        (fun x => decide (recKey x = recKey r)) = some r) := by
  have hperm := List.perm_insertionSort score_desc
    (dedup_first (content_based ++ collaborative ++ gap_filling) [])
  refine ⟨?_, ?_, ?_, ?_⟩
  · unfold hybrid_recommendations
    rw [List.length_take]
    exact min_le_left _ _
  · unfold hybrid_recommendations
    apply List.Pairwise.sublist (List.take_sublist _ _)
    have hpw := dedup_first_pairwise (content_based ++ collaborative ++ gap_filling) []
    have hsymm : Symmetric (fun r₁ r₂ : Recommendation => recKey r₁ ≠ recKey r₂) :=
      fun _ _ hne => hne.symm
    have hpw' : (List.insertionSort score_desc
        (dedup_first (content_based ++ collaborative ++ gap_filling) [])).Pairwise
        (fun r₁ r₂ => recKey r₁ ≠ recKey r₂) :=
      (hperm.pairwise_iff (fun {r₁ r₂} hne => hsymm hne)).mpr hpw
    refine hpw'.imp ?_
    intro r₁ r₂ hne hand
    apply hne
    unfold recKey
    rw [hand.1, hand.2]
  · unfold hybrid_recommendations
    exact List.Pairwise.sublist (List.take_sublist _ _)
      (List.sorted_insertionSort score_desc _)
  · intro r hr
    unfold hybrid_recommendations at hr
    have hr1 : r ∈ List.insertionSort score_desc
        (dedup_first (content_based ++ collaborative ++ gap_filling) []) :=
      List.mem_of_mem_take hr
    have hr2 : r ∈ dedup_first (content_based ++ collaborative ++ gap_filling) [] :=
      hperm.mem_iff.mp hr1
    exact (dedup_first_key_spec _ _ r hr2).2

/-- A sample recommendation entry. -/
def demoRecommendation : Recommendation :=
  { content_id := 1, content_type := "course", score := 1 }

/-- Witness for C7 at concrete source lists. -/
theorem hybrid_recommendations_spec_witness :
    ([demoRecommendation] ++ [] ++ ([] : List Recommendation)).find?
      (fun x => decide (recKey x = recKey demoRecommendation)) =
      some demoRecommendation :=
  (hybrid_recommendations_spec [demoRecommendation] [] [] 1).2.2.2
    demoRecommendation (by decide)

end EduLearn
